import Mathlib

/-!
Shallow embedding of the DARP MILP formulation engine
(src/python/pymoo/src/darp_model.py and darp_model_laeb.py).

Conventions of the embedding:
* Pyomo node identifiers are `String`s, exactly as in the source
  (`'0_start'`, `'1+'`, `'1-'`, `'0_end'`, ...).
* All numeric parameters and decision-variable values are rationals `ℚ`
  (the source declares `B`, `Q` as `NonNegativeReals` and `x` as `Binary`;
  every constraint is a linear inequality, and the per-arc constraint
  bodies are stated polymorphically over any linear ordered field so that
  the Big-M statements cover the real-valued model as well).
* Pyomo `ConstraintList`-style families become `Prop`s quantifying over the
  same index lists the source iterates over.
* The `while` loops of `get_route_summary` become fuel-indexed recursive
  functions; the extra `Bool` result records whether the loop exited by
  itself (`true`) or the fuel ran out while the source loop would still be
  running (`false`).  The fuel actually supplied, `routes.length + 1`, is
  proved sufficient for every acyclic arc selection (claim C10), so on
  terminating inputs the fueled walk computes exactly what the source
  loop computes.
-/

namespace DARPModelLB

/-- Pickup node name of request `i`: the Python f-string of `i` followed by a plus sign. -/
def pickupNode (i : ℕ) : String := toString i ++ "+"

/-- Delivery node name of request `i`: the Python f-string of `i` followed by a minus sign. -/
def deliveryNode (i : ℕ) : String := toString i ++ "-"

/-- The node universe `m.J = ['0_start'] + list(m.P | m.D) + ['0_end']`
(`m.P | m.D` is a Pyomo set union: concatenation with duplicates removed). -/
def build_J (P D : List String) : List String :=
  "0_start" :: (P ++ D).dedup ++ ["0_end"]

/-- The valid-arc set
`m.A = [(i, j) for i in m.J for j in m.J if i != j and i != '0_end' and j != '0_start']`. -/
def build_A (J : List String) : List (String × String) :=
  (J ×ˢ J).filter (fun a => a.1 ≠ a.2 ∧ a.1 ≠ "0_end" ∧ a.2 ≠ "0_start")

/-- Condition (1e) inside `_generate_s_sets`: the subset `S` (depot already
added) contains the delivery node of some request but not its pickup node. -/
def hasDeliveryWithoutPickup (Requests : List ℕ) (S : Finset String) : Bool :=
  Requests.any (fun i => decide (deliveryNode i ∈ S ∧ pickupNode i ∉ S))

/-- `_generate_s_sets`: iterate over every nonempty combination of customer
nodes (`itertools.combinations` over all sizes `1..len(all_nodes)` produces
exactly the nonempty subsequences of `P ++ D`), add `'0_start'`, and keep the
subset when `hasDeliveryWithoutPickup` holds.  Python builds `set(subset)`,
so each generated subset is a `Finset String`. -/
def generate_s_sets (Requests : List ℕ) (P D : List String) : List (Finset String) :=
  ((P ++ D).sublists.filter (fun sub => !sub.isEmpty)).filterMap (fun sub =>
    let S : Finset String := insert "0_start" sub.toFinset
    if hasDeliveryWithoutPickup Requests S then some S else none)

/-- The Big-M coefficient of constraint (1f):
`M_ij = m.l[i] + m.s[i] + m.t[i,j] - m.e[j]`. -/
def M_LB {α : Type} [LinearOrderedField α] (l_i s_i t_ij e_j : α) : α :=
  l_i + s_i + t_ij - e_j

/-- Body of one time-continuity constraint (1f):
`B[i] + s[i] + t[i,j] - M_ij * (1 - x[i,j]) <= B[j]`. -/
def time_consistency_arc {α : Type} [LinearOrderedField α]
    (s_i t_ij e_j l_i B_i B_j x_ij : α) : Prop :=
  B_i + s_i + t_ij - M_LB l_i s_i t_ij e_j * (1 - x_ij) ≤ B_j

/-- Body of one load-continuity constraint (1g):
`Q[i] + q[j] - Q_max * (1 - x[i,j]) <= Q[j]`. -/
def load_consistency_arc {α : Type} [LinearOrderedField α]
    (q_j Qmax Q_i Q_j x_ij : α) : Prop :=
  Q_i + q_j - Qmax * (1 - x_ij) ≤ Q_j

/-- The input data bundle of `DARPModelLB`, with the payload fields the
constraint families read. -/
structure LBData where
  Requests : List ℕ
  P : List String
  D : List String
  costs : String × String → ℚ
  travel_times : String × String → ℚ
  service_times : String → ℚ
  load_change : String → ℚ
  tw_start : String → ℚ
  tw_end : String → ℚ
  max_ride_time : ℕ → ℚ
  capacity : ℚ
  vehicles : ℚ

/-- `m.J_minus_depot = m.P | m.D`. -/
def LBData.Jc (d : LBData) : List String := (d.P ++ d.D).dedup

/-- `m.J` of the model built from `d`. -/
def LBData.J (d : LBData) : List String := build_J d.P d.D

/-- `m.A` of the model built from `d`. -/
def LBData.A (d : LBData) : List (String × String) := build_A (build_J d.P d.D)

/-- Constraint (1b): `sum(x[i,j] for i in J if (i,j) in A) == 1` for every
`j` in `J_minus_depot`. -/
def visit_once (d : LBData) (x : String × String → ℚ) : Prop :=
  ∀ j ∈ d.Jc, ((d.J.filter (fun i => (i, j) ∈ d.A)).map (fun i => x (i, j))).sum = 1

/-- Constraint (1c): `sum(x[i,j] for j in J if (i,j) in A) == 1` for every
`i` in `J_minus_depot`. -/
def leave_once (d : LBData) (x : String × String → ℚ) : Prop :=
  ∀ i ∈ d.Jc, ((d.J.filter (fun j => (i, j) ∈ d.A)).map (fun j => x (i, j))).sum = 1

/-- Constraint (1d): `sum(x['0_start', j] for j in P if ('0_start', j) in A) <= K`.
Note the sum ranges over the pickup nodes `m.P` only. -/
def fleet_limit (d : LBData) (x : String × String → ℚ) : Prop :=
  ((d.P.filter (fun j => ("0_start", j) ∈ d.A)).map (fun j => x ("0_start", j))).sum
    ≤ d.vehicles

/-- The arcs with both endpoints inside `S`:
`[(i, j) for i in S for j in S if (i, j) in m.A]` (as the sub-list of `A`). -/
def arcs_in_S (A : List (String × String)) (S : Finset String) : List (String × String) :=
  A.filter (fun a => a.1 ∈ S ∧ a.2 ∈ S)

/-- Constraint (1e), one per generated subset:
`sum(x[i,j] for (i,j) in arcs_in_S) <= len(S) - 2`. -/
def precedence_pairing (d : LBData) (x : String × String → ℚ) : Prop :=
  ∀ S ∈ generate_s_sets d.Requests d.P d.D,
    ((arcs_in_S d.A S).map x).sum ≤ (S.card : ℚ) - 2

/-- Constraint family (1f) over all valid arcs. -/
def time_consistency (d : LBData) (x : String × String → ℚ) (B : String → ℚ) : Prop :=
  ∀ a ∈ d.A,
    time_consistency_arc (d.service_times a.1) (d.travel_times a)
      (d.tw_start a.2) (d.tw_end a.1) (B a.1) (B a.2) (x a)

/-- Constraint family (1g) over all valid arcs. -/
def load_consistency (d : LBData) (x : String × String → ℚ) (Q : String → ℚ) : Prop :=
  ∀ a ∈ d.A, load_consistency_arc (d.load_change a.2) d.capacity (Q a.1) (Q a.2) (x a)

/-- Constraint (1h): `(e[j], B[j], l[j])` box bounds. -/
def service_windows (d : LBData) (B : String → ℚ) : Prop :=
  ∀ j ∈ d.J, d.tw_start j ≤ B j ∧ B j ≤ d.tw_end j

/-- Constraint (1i): `(max(0, q[j]), Q[j], min(Q_max, Q_max + q[j]))` box bounds. -/
def capacity_bound (d : LBData) (Q : String → ℚ) : Prop :=
  ∀ j ∈ d.J,
    max 0 (d.load_change j) ≤ Q j ∧ Q j ≤ min d.capacity (d.capacity + d.load_change j)

/-- Constraint (1j): `B[d] - (B[p] + s[p]) <= L[r]` per request. -/
def max_ride_duration (d : LBData) (B : String → ℚ) : Prop :=
  ∀ r ∈ d.Requests,
    B (deliveryNode r) - (B (pickupNode r) + d.service_times (pickupNode r))
      ≤ d.max_ride_time r

/-- Variable domain: `m.x = Var(m.A, domain=Binary)`. -/
def x_binary (d : LBData) (x : String × String → ℚ) : Prop :=
  ∀ a ∈ d.A, x a = 0 ∨ x a = 1

/-- Variable domains: `m.B`, `m.Q` are `NonNegativeReals`. -/
def vars_nonneg (d : LBData) (B Q : String → ℚ) : Prop :=
  ∀ j ∈ d.J, 0 ≤ B j ∧ 0 ≤ Q j

/-- A feasible assignment of the LB model: all variable domains and all
constraint families of `_build_model` hold. -/
def feasibleLB (d : LBData) (x : String × String → ℚ) (B Q : String → ℚ) : Prop :=
  visit_once d x ∧ leave_once d x ∧ fleet_limit d x ∧ precedence_pairing d x ∧
    time_consistency d x B ∧ load_consistency d x Q ∧ service_windows d B ∧
    capacity_bound d Q ∧ max_ride_duration d B ∧ x_binary d x ∧ vars_nonneg d B Q

/-- The sum of `x['0_start', j]` over all arcs of `A` leaving the start
depot (what claim C1 asserts the fleet-limit constraint bounds). -/
def startDepotOutSum (d : LBData) (x : String × String → ℚ) : ℚ :=
  ((d.A.filter (fun a => a.1 = "0_start")).map x).sum

end DARPModelLB

namespace DARPModelLB

/-! Validation and initialization (`validate_data`, `__init__`). -/

/-- The `required_keys` list of `DARPModelLB.validate_data`. -/
def required_keys : List String :=
  ["Requests", "P", "D", "costs", "travel_times",
   "service_times", "load_change", "tw_start",
   "tw_end", "max_ride_time", "capacity", "vehicles"]

/-- The `for key in required_keys: if key not in self.data: raise ValueError(...)`
loop: stops with the error naming the first missing key, in list order. -/
def validate_loop (dataKeys : List String) (msg : String → String) :
    List String → Except String Unit
  | [] => .ok ()
  | k :: rest =>
      if k ∈ dataKeys then validate_loop dataKeys msg rest
      else .error (msg k)

/-- `DARPModelLB.validate_data` over the key set of the input dictionary. -/
def validate_data (dataKeys : List String) : Except String Unit :=
  validate_loop dataKeys (fun k => "Missing required data key: " ++ k) required_keys

/-- One decoded solver assignment (values of `x`, `B`, `Q` after a solve). -/
structure SolLB where
  x : String × String → ℚ
  B : String → ℚ
  Q : String → ℚ

/-- The state of a `DARPModelLB` object that `get_route_summary` reads:
the arc index set `m.A`, whether the attribute `m.x` exists
(`hasattr(self.model, 'x')`), and the variable values (`none` while the
Pyomo variables are uninitialized, i.e. before a successful solve). -/
structure ModelLB where
  A : List (String × String)
  hasX : Bool
  sol : Option SolLB

/-- The input dictionary of `DARPModelLB.__init__`: its key set plus the
payload read by `_build_model`'s set construction. -/
structure LBBundle where
  keys : List String
  P : List String
  D : List String

/-- `_build_model`: creates the sets and the (still unsolved) variables; in
particular after it runs the model object has an `x` attribute and all
variable values are uninitialized. -/
def build_model (b : LBBundle) : ModelLB :=
  { A := build_A (build_J b.P b.D), hasX := true, sol := none }

/-- `DARPModelLB.__init__`: `validate_data` runs first and aborts with its
error before `_build_model` constructs any set or constraint. -/
def init (b : LBBundle) : Except String ModelLB :=
  match validate_data b.keys with
  | .error e => .error e
  | .ok _ => .ok (build_model b)

/-! Route reconstruction (`get_route_summary`). -/

/-- One entry of the `routes` list of dicts built from the active arcs. -/
structure LegLB where
  frm : String
  tgt : String
  depart_time : ℚ
  arrive_time : ℚ
  load_after : ℚ

/-- The accumulated `path`/`times`/`loads` of one vehicle walk. -/
structure RouteInfoLB where
  route : List String
  times : List ℚ
  loads : List ℚ
deriving DecidableEq

/-- Result of `get_route_summary`: the early-return string, a raised
`ValueError` from `value()` on an uninitialized variable, or the summary
dictionary (an association list keyed by `path[1]`, in insertion order). -/
inductive SummaryLB where
  | notSolved (msg : String)
  | valueError
  | summary (s : List (String × RouteInfoLB))
deriving DecidableEq

/-- The `while current != '0_end'` walk: look up the first leg of `routes`
leaving `current` (`next((r for r in routes if r['from'] == current), None)`),
stop (`break`) when there is none, otherwise append its target, arrival time
and load and continue.  The `Bool` is `true` iff the loop exited by itself
within the given fuel. -/
def walk (routes : List LegLB) : ℕ → String → RouteInfoLB → RouteInfoLB × Bool
  | 0, _, acc => (acc, false)
  | fuel + 1, current, acc =>
      if current = "0_end" then (acc, true)
      else
        match routes.find? (fun r => r.frm = current) with
        | none => (acc, true)
        | some leg =>
            walk routes fuel leg.tgt
              ⟨acc.route ++ [leg.tgt], acc.times ++ [leg.arrive_time],
               acc.loads ++ [leg.load_after]⟩

/-- `DARPModelLB.get_route_summary`.  The active-arc legs are collected in
the iteration order of `m.x` (the arc list `A`); each leg records
`value(B[i])`, `value(B[j])`, `value(Q[j])`.  A walk is started for every
leg leaving `'0_start'` and its result is stored under key `path[1]`,
whether or not the walk reached `'0_end'`. -/
def get_route_summary (m : ModelLB) : SummaryLB :=
  if !m.hasX then .notSolved "Model not solved yet."
  else
    match m.sol with
    | none =>
        -- `value(self.model.x[i, j])` raises on the first arc while the
        -- variables are uninitialized (before any successful solve).
        if m.A.isEmpty then .summary [] else .valueError
    | some sol =>
        let routes : List LegLB :=
          (m.A.filter (fun a => sol.x a > 1/2)).map
            (fun a => ⟨a.1, a.2, sol.B a.1, sol.B a.2, sol.Q a.2⟩)
        .summary (routes.filterMap (fun r =>
          if r.frm = "0_start" then
            some (r.tgt,
              (walk routes (routes.length + 1) r.tgt
                ⟨[r.frm, r.tgt], [r.depart_time, r.arrive_time],
                 [0, r.load_after]⟩).1)
          else none))

end DARPModelLB

namespace DARPModelLAEB

/-! The Location-Augmented-Event-Based formulation (darp_model_laeb.py). -/

/-- An event of the LAEB event graph: a tuple whose first component is a
physical location and whose remaining components encode the onboard load
state; the depot event is `('0',)` i.e. `⟨"0", []⟩`. -/
structure Event where
  loc : String
  state : List ℤ
deriving DecidableEq

/-- The depot event `('0',)`. -/
def depotEvent : Event := ⟨"0", []⟩

/-- The `required_keys` list of `DARPModelLAEB.validate_data`. -/
def required_keys : List String :=
  ["V", "A", "Requests", "P", "D", "J", "costs", "travel_times",
   "service_times", "tw_start", "tw_end", "max_ride_time", "vehicles"]

/-- `DARPModelLAEB.validate_data` over the key set of the input dictionary. -/
def validate_data (dataKeys : List String) : Except String Unit :=
  DARPModelLB.validate_loop dataKeys
    (fun k => "Falta la clave de datos requerida: " ++ k) required_keys

/-- The event-arcs of `A` connecting physical location `i` to physical
location `j`: `[a for a in m.A if a[0][0] == i and a[1][0] == j]`. -/
def relevant_arcs (A : List (Event × Event)) (i j : String) : List (Event × Event) :=
  A.filter (fun a => a.1.loc = i ∧ a.2.loc = j)

/-- One emitted aggregated time-consistency constraint (3b): the pair of
physical locations and the group of event-arcs whose selection variables
are summed inside the Big-M term. -/
structure TimeConsCon where
  i : String
  j : String
  arcs : List (Event × Event)
deriving DecidableEq

/-- The body of the (3b) generation rule at one index pair `p`: skip the
pair when no event-arc connects `p.1` to `p.2` (`Constraint.Skip`),
otherwise emit one aggregated constraint carrying the group of relevant
arcs. -/
def tc_emit (A : List (Event × Event)) (p : String × String) : Option TimeConsCon :=
  let rel := relevant_arcs A p.1 p.2
  if rel.isEmpty then none else some ⟨p.1, p.2, rel⟩

/-- The family (3b): the generation rule is evaluated at every ordered
pair `(i, j)` of `m.J × m.J` (the iteration order of
`@m.Constraint(m.J, m.J)`). -/
def time_consistency_family (J : List String) (A : List (Event × Event)) :
    List TimeConsCon :=
  (J ×ˢ J).filterMap (tc_emit A)

/-- The Big-M of (3b): `M_ij = l[i] + s[i] + travel_matrix[i][j] - e[j]`. -/
def M_LAEB (l_i s_i travel_ij e_j : ℚ) : ℚ := l_i + s_i + travel_ij - e_j

/-- Satisfaction of one emitted constraint (3b):
`B_bar[j] >= B_bar[i] + s[i] + travel_matrix[i][j] - M_ij * (1 - sum of x
over the relevant arcs)`. -/
def time_consistency_holds (s e l : String → ℚ) (travel : String → String → ℚ)
    (x : Event × Event → ℚ) (Bbar : String → ℚ) (c : TimeConsCon) : Prop :=
  Bbar c.j ≥ Bbar c.i + s c.i + travel c.i c.j -
    M_LAEB (l c.i) (s c.i) (travel c.i c.j) (e c.j) * (1 - (c.arcs.map x).sum)

/-- One decoded solver assignment of the LAEB model. -/
structure SolLAEB where
  x : Event × Event → ℚ
  Bbar : String → ℚ

/-- The state of a `DARPModelLAEB` object that `get_route_summary` reads. -/
structure ModelLAEB where
  A : List (Event × Event)
  hasX : Bool
  sol : Option SolLAEB

/-- The input dictionary of `DARPModelLAEB.__init__`: key set plus the
event-arc list the model is built over. -/
structure LAEBBundle where
  keys : List String
  A : List (Event × Event)

/-- `_build_model` of the LAEB class. -/
def build_model (b : LAEBBundle) : ModelLAEB :=
  { A := b.A, hasX := true, sol := none }

/-- `DARPModelLAEB.__init__`: validation first, then model construction. -/
def init (b : LAEBBundle) : Except String ModelLAEB :=
  match validate_data b.keys with
  | .error e => .error e
  | .ok _ => .ok (build_model b)

/-- One reconstructed LAEB route: physical locations and service times. -/
structure RouteLAEB where
  path : List String
  times : List ℚ
deriving DecidableEq

/-- Result of `DARPModelLAEB.get_route_summary`. -/
inductive SummaryLAEB where
  | notSolved (msg : String)
  | valueError
  | summary (s : List RouteLAEB)
deriving DecidableEq

/-- The `while True` walk of the LAEB reconstruction: find the first active
arc leaving `curr`; stop when there is none; when the successor event maps
back to the depot location `'0'`, append `'0'` with its time and stop;
otherwise move to the successor event and record its location.  The `Bool`
is `true` iff the loop exited by itself within the given fuel. -/
def walk (active : List (Event × Event)) (Bbar : String → ℚ) :
    ℕ → Event → RouteLAEB → RouteLAEB × Bool
  | 0, _, acc => (acc, false)
  | fuel + 1, curr, acc =>
      match active.find? (fun a => a.1 = curr) with
      | none => (acc, true)
      | some a =>
          if a.2.loc = "0" then
            (⟨acc.path ++ ["0"], acc.times ++ [Bbar "0"]⟩, true)
          else
            walk active Bbar fuel a.2
              ⟨acc.path ++ [a.2.loc], acc.times ++ [Bbar a.2.loc]⟩

/-- `DARPModelLAEB.get_route_summary`: collect active arcs
(`value(x[a]) > 0.5`), start one walk per active arc leaving the depot
event, and return the list of reconstructed routes (complete or not). -/
def get_route_summary (m : ModelLAEB) : SummaryLAEB :=
  if !m.hasX then .notSolved "Modelo no resuelto."
  else
    match m.sol with
    | none => if m.A.isEmpty then .summary [] else .valueError
    | some sol =>
        let active := m.A.filter (fun a => sol.x a > 1/2)
        let starts := active.filter (fun a => a.1 = depotEvent)
        .summary (starts.map (fun sa =>
          (walk active sol.Bbar (active.length + 1) sa.2
            ⟨[sa.1.loc, sa.2.loc], [sol.Bbar sa.1.loc, sol.Bbar sa.2.loc]⟩).1))

end DARPModelLAEB

/-!
Generic successor-walk skeleton shared by the two `get_route_summary`
loops: only the control flow (stop / step) matters for termination, so the
loops are related to `genWalk` over their respective step functions.
-/

/-- Fueled iteration of a partial successor function: `true` iff the loop
reaches a stopping point (successor `none`) within the fuel. -/
def genWalk {α : Type} (σ : α → Option α) : ℕ → α → Bool
  | 0, _ => false
  | fuel + 1, c =>
      match σ c with
      | none => true
      | some n => genWalk σ fuel n

/-- `k`-fold application of the partial successor function. -/
def iterStep {α : Type} (σ : α → Option α) : ℕ → α → Option α
  | 0, c => some c
  | k + 1, c =>
      match σ c with
      | none => none
      | some n => iterStep σ k n

/-- The step the LB walk performs from `current`: stop at `'0_end'`, stop
when no leg of `routes` leaves `current`, otherwise move to the target of
the first such leg. -/
def DARPModelLB.stepLB (routes : List DARPModelLB.LegLB) (c : String) : Option String :=
  if c = "0_end" then none
  else
    match routes.find? (fun r => r.frm = c) with
    | none => none
    | some leg => some leg.tgt

/-- The step the LAEB walk performs from event `curr`: stop when no active
arc leaves it, stop when the successor event maps back to location `'0'`,
otherwise move to the successor event. -/
def DARPModelLAEB.stepLAEB (active : List (DARPModelLAEB.Event × DARPModelLAEB.Event))
    (c : DARPModelLAEB.Event) : Option DARPModelLAEB.Event :=
  match active.find? (fun a => a.1 = c) with
  | none => none
  | some a => if a.2.loc = "0" then none else some a.2

/-- A directed cycle inside the edge list `edges` all of whose nodes
satisfy `ok` (instantiated with "is not a depot node/event"): a node `n`
together with a chain of edges leading from `n` back to `n`. -/
def hasDirectedCycle {α : Type} (edges : List (α × α)) (ok : α → Prop) : Prop :=
  ∃ (n : α) (l : List α),
    List.Chain (fun a b => (a, b) ∈ edges) n (l ++ [n]) ∧ ∀ m ∈ n :: l, ok m

/-- The selected arcs of the LB reconstruction, as directed edges. -/
def DARPModelLB.legEdges (routes : List DARPModelLB.LegLB) : List (String × String) :=
  routes.map (fun r => (r.frm, r.tgt))

/-!
Concrete instance data used by the witnesses and counterexamples below.
The LB instance is the one-request version of the example generator in
instance.py (depot-customer travel 5, customer-customer travel 1, windows
[0,100] at the depots and [5,60] at the customers, capacity 3, K = 1); the
LAEB data is the event graph of laeb_example.py.
-/

namespace DARPModelLB

/-- One-request LB instance (instance.py parameters restricted to request 1). -/
def exData : LBData where
  Requests := [1]
  P := ["1+"]
  D := ["1-"]
  costs := fun a =>
    if a.1 = a.2 then 0
    else if a.1 = "0_start" ∨ a.1 = "0_end" ∨ a.2 = "0_start" ∨ a.2 = "0_end" then 5
    else 1
  travel_times := fun a =>
    if a.1 = a.2 then 0
    else if a.1 = "0_start" ∨ a.1 = "0_end" ∨ a.2 = "0_start" ∨ a.2 = "0_end" then 5
    else 1
  service_times := fun _ => 0
  load_change := fun j => if j = "1+" then 1 else if j = "1-" then -1 else 0
  tw_start := fun j => if j = "0_start" ∨ j = "0_end" then 0 else 5
  tw_end := fun j => if j = "0_start" ∨ j = "0_end" then 100 else 60
  max_ride_time := fun _ => 100
  capacity := 3
  vehicles := 1

/-- A feasible arc selection for `exData` that serves the request and
additionally activates the uncounted arc `('0_start', '0_end')`. -/
def exX : String × String → ℚ := fun a =>
  if a = ("0_start", "1+") ∨ a = ("1+", "1-") ∨ a = ("1-", "0_end") ∨
      a = ("0_start", "0_end") then 1
  else 0

/-- Service start times matching `exX`. -/
def exB : String → ℚ := fun j =>
  if j = "0_start" then 0 else if j = "1+" then 5 else if j = "1-" then 6 else 11

/-- Loads matching `exX`. -/
def exQ : String → ℚ := fun j => if j = "1+" then 1 else 0

/-- An arc selection whose only active arc leaves the start depot and
dead-ends at `'1+'` (no successor before `'0_end'`). -/
def exXPartial : String × String → ℚ := fun a =>
  if a = ("0_start", "1+") then 1 else 0

/-- Model state after a solve whose decoded assignment is the dead-ending
selection `exXPartial`. -/
def exModelPartial : ModelLB :=
  { A := exData.A, hasX := true, sol := some ⟨exXPartial, exB, exQ⟩ }

/-- Input bundle with every required key present. -/
def exBundle : LBBundle where
  keys := required_keys
  P := ["1+"]
  D := ["1-"]

/-- The full (acyclic) leg list decoded from the optimal route of the
one-request instance. -/
def exRoutes : List LegLB :=
  [⟨"0_start", "1+", 0, 5, 1⟩, ⟨"1+", "1-", 5, 6, 0⟩, ⟨"1-", "0_end", 6, 11, 0⟩]

/-- A cyclic leg list: the selected arcs `1+ → 1- → 1+` form a directed
cycle among non-depot nodes. -/
def exCycRoutes : List LegLB :=
  [⟨"1+", "1-", 0, 0, 0⟩, ⟨"1-", "1+", 0, 0, 0⟩]

end DARPModelLB

namespace DARPModelLAEB

/-- The event-arc list of laeb_example.py. -/
def exArcs : List (Event × Event) :=
  [(⟨"0", []⟩, ⟨"1+", [1]⟩), (⟨"1+", [1]⟩, ⟨"1-", [0]⟩), (⟨"1-", [0]⟩, ⟨"0", []⟩)]

/-- The physical-location list `J` of laeb_example.py. -/
def exJ : List String := ["0", "1+", "1-"]

/-- Service start times for the LAEB example. -/
def exBbar : String → ℚ := fun j => if j = "0" then 0 else if j = "1+" then 5 else 15

/-- Model state after a solve whose only active event-arc leaves the depot
event and dead-ends at the pickup event. -/
def exModelPartial : ModelLAEB :=
  { A := exArcs, hasX := true,
    sol := some ⟨fun a => if a = (⟨"0", []⟩, ⟨"1+", [1]⟩) then 1 else 0, exBbar⟩ }

/-- Input bundle with every required key present. -/
def exBundle : LAEBBundle where
  keys := required_keys
  A := exArcs

/-- A cyclic active event-arc list: the events at locations `1+` and `1-`
form a directed cycle, and neither lies at the depot location `'0'`. -/
def exCycArcs : List (Event × Event) :=
  [(⟨"1+", [1]⟩, ⟨"1-", [2]⟩), (⟨"1-", [2]⟩, ⟨"1+", [1]⟩)]

end DARPModelLAEB

/-!
Theorems.
-/

namespace DARPModelLB

/-- The node-membership characterization of `build_J`. -/
theorem mem_build_J (P D : List String) (a : String) :
    a ∈ build_J P D ↔ (a = "0_start" ∨ a ∈ P ∨ a ∈ D ∨ a = "0_end") := by
  simp [build_J, or_assoc]

/-- The arc-membership characterization of `build_A`. -/
theorem mem_build_A (J : List String) (i j : String) :
    (i, j) ∈ build_A J ↔
      (i ∈ J ∧ j ∈ J) ∧ i ≠ j ∧ i ≠ "0_end" ∧ j ≠ "0_start" := by
  simp [build_A, List.mem_filter, List.mem_product]

end DARPModelLB

/-- C7: the LB node/arc set builder produces
`J = {start-depot} ∪ P ∪ D ∪ {end-depot}` and
`A = {(i,j) ∈ J×J : i ≠ j, i ≠ end-depot, j ≠ start-depot}`; in particular
no arc re-enters the start depot and no arc leaves the end depot. -/
theorem c7_node_arc_builder (P D : List String) :
    (∀ a, a ∈ DARPModelLB.build_J P D ↔
        (a = "0_start" ∨ a ∈ P ∨ a ∈ D ∨ a = "0_end")) ∧
    (∀ i j, (i, j) ∈ DARPModelLB.build_A (DARPModelLB.build_J P D) ↔
        ((i ∈ DARPModelLB.build_J P D ∧ j ∈ DARPModelLB.build_J P D) ∧
          i ≠ j ∧ i ≠ "0_end" ∧ j ≠ "0_start")) ∧
    (∀ i, (i, "0_start") ∉ DARPModelLB.build_A (DARPModelLB.build_J P D)) ∧
    (∀ j, ("0_end", j) ∉ DARPModelLB.build_A (DARPModelLB.build_J P D)) := by
  refine ⟨fun a => DARPModelLB.mem_build_J P D a,
    fun i j => DARPModelLB.mem_build_A _ i j, fun i h => ?_, fun j h => ?_⟩
  · rcases (DARPModelLB.mem_build_A _ i "0_start").mp h with ⟨-, -, -, hj⟩
    exact hj rfl
  · rcases (DARPModelLB.mem_build_A _ "0_end" j).mp h with ⟨-, -, hi, -⟩
    exact hi rfl

namespace DARPModelLB

/-- When every key of `req` is present, the validation loop succeeds. -/
theorem validate_loop_ok (dataKeys : List String) (msg : String → String) :
    ∀ req : List String, (∀ k ∈ req, k ∈ dataKeys) →
      validate_loop dataKeys msg req = .ok () := by
  intro req
  induction req with
  | nil => intro _; rfl
  | cons k rest ih =>
      intro h
      have hk : k ∈ dataKeys := h k (by simp)
      simp only [validate_loop, if_pos hk]
      exact ih (fun k' hk' => h k' (by simp [hk']))

/-- When `req = l₁ ++ k :: l₂`, every key of `l₁` is present and `k` is
missing, the validation loop stops with the error naming `k`. -/
theorem validate_loop_err (dataKeys : List String) (msg : String → String) :
    ∀ (l₁ : List String) (k : String) (l₂ : List String),
      k ∉ dataKeys → (∀ k' ∈ l₁, k' ∈ dataKeys) →
      validate_loop dataKeys msg (l₁ ++ k :: l₂) = .error (msg k) := by
  intro l₁
  induction l₁ with
  | nil =>
      intro k l₂ hk _
      simp only [List.nil_append, validate_loop, if_neg hk]
  | cons k' rest ih =>
      intro k l₂ hk h
      have hk' : k' ∈ dataKeys := h k' (by simp)
      simp only [List.cons_append, validate_loop, if_pos hk']
      exact ih k l₂ hk (fun z hz => h z (by simp [hz]))

end DARPModelLB

/-- C6: for each formulation, `validate_data` fails with a configuration
error naming the first missing key of the required-key list, in list
order; when no key is missing, `__init__` proceeds and builds the model
from the unchanged data bundle.  The `Except`-structure of `init` shows
validation runs before any set or constraint construction: on a missing
key, `init` returns the error and no model is built. -/
theorem c6_validation (bLB : DARPModelLB.LBBundle) (bLAEB : DARPModelLAEB.LAEBBundle) :
    ((∀ k ∈ DARPModelLB.required_keys, k ∈ bLB.keys) →
      DARPModelLB.init bLB = .ok (DARPModelLB.build_model bLB)) ∧
    (∀ (l₁ : List String) (k : String) (l₂ : List String),
      DARPModelLB.required_keys = l₁ ++ k :: l₂ → k ∉ bLB.keys →
      (∀ k' ∈ l₁, k' ∈ bLB.keys) →
      DARPModelLB.init bLB = .error ("Missing required data key: " ++ k)) ∧
    ((∀ k ∈ DARPModelLAEB.required_keys, k ∈ bLAEB.keys) →
      DARPModelLAEB.init bLAEB = .ok (DARPModelLAEB.build_model bLAEB)) ∧
    (∀ (l₁ : List String) (k : String) (l₂ : List String),
      DARPModelLAEB.required_keys = l₁ ++ k :: l₂ → k ∉ bLAEB.keys →
      (∀ k' ∈ l₁, k' ∈ bLAEB.keys) →
      DARPModelLAEB.init bLAEB = .error ("Falta la clave de datos requerida: " ++ k)) := by
  refine ⟨fun h => ?_, fun l₁ k l₂ hsplit hk h => ?_, fun h => ?_,
    fun l₁ k l₂ hsplit hk h => ?_⟩
  · unfold DARPModelLB.init DARPModelLB.validate_data
    rw [DARPModelLB.validate_loop_ok _ _ _ h]
  · unfold DARPModelLB.init DARPModelLB.validate_data
    rw [hsplit, DARPModelLB.validate_loop_err _ _ _ _ _ hk h]
  · unfold DARPModelLAEB.init DARPModelLAEB.validate_data
    rw [DARPModelLB.validate_loop_ok _ _ _ h]
  · unfold DARPModelLAEB.init DARPModelLAEB.validate_data
    rw [hsplit, DARPModelLB.validate_loop_err _ _ _ _ _ hk h]

/-- C6 witness: with all keys present both inits succeed; removing
`'costs'` from the LB bundle (fourth key) and `'V'` from the LAEB bundle
(first key) produces the configuration errors naming those keys. -/
theorem c6_validation_witness :
    DARPModelLB.init DARPModelLB.exBundle =
      .ok (DARPModelLB.build_model DARPModelLB.exBundle) ∧
    DARPModelLAEB.init DARPModelLAEB.exBundle =
      .ok (DARPModelLAEB.build_model DARPModelLAEB.exBundle) ∧
    DARPModelLB.init { DARPModelLB.exBundle with keys :=
        ["Requests", "P", "D", "travel_times", "service_times", "load_change",
         "tw_start", "tw_end", "max_ride_time", "capacity", "vehicles"] } =
      .error "Missing required data key: costs" ∧
    DARPModelLAEB.init { DARPModelLAEB.exBundle with keys := [] } =
      .error "Falta la clave de datos requerida: V" := by
  refine ⟨(c6_validation DARPModelLB.exBundle DARPModelLAEB.exBundle).1 (by decide),
    (c6_validation DARPModelLB.exBundle DARPModelLAEB.exBundle).2.2.1 (by decide),
    ?_, ?_⟩
  · exact (c6_validation _ DARPModelLAEB.exBundle).2.1
      ["Requests", "P", "D"] "costs"
      ["travel_times", "service_times", "load_change", "tw_start", "tw_end",
       "max_ride_time", "capacity", "vehicles"]
      (by decide) (by decide) (by decide)
  · exact (c6_validation DARPModelLB.exBundle _).2.2.2
      [] "V"
      ["A", "Requests", "P", "D", "J", "costs", "travel_times",
       "service_times", "tw_start", "tw_end", "max_ride_time", "vehicles"]
      (by decide) (by decide) (by decide)

/-- C9: route reconstruction is deterministic and idempotent — the summary
is a pure function of the model state read by `get_route_summary` (the arc
index set, the `x` attribute flag and the fixed variable assignment), so
two reconstructions from the same assignment yield identical itineraries
in both formulations. -/
theorem c9_reconstruction_deterministic :
    (∀ m₁ m₂ : DARPModelLB.ModelLB, m₁.A = m₂.A → m₁.hasX = m₂.hasX →
      m₁.sol = m₂.sol →
      DARPModelLB.get_route_summary m₁ = DARPModelLB.get_route_summary m₂) ∧
    (∀ m₁ m₂ : DARPModelLAEB.ModelLAEB, m₁.A = m₂.A → m₁.hasX = m₂.hasX →
      m₁.sol = m₂.sol →
      DARPModelLAEB.get_route_summary m₁ = DARPModelLAEB.get_route_summary m₂) := by
  constructor
  · intro m₁ m₂ hA hX hsol
    cases m₁
    cases m₂
    simp only at hA hX hsol
    subst hA
    subst hX
    subst hsol
    rfl
  · intro m₁ m₂ hA hX hsol
    cases m₁
    cases m₂
    simp only at hA hX hsol
    subst hA
    subst hX
    subst hsol
    rfl

/-- C9 witness: reconstructing twice from the concrete fixed assignments of
the example models yields identical summaries. -/
theorem c9_reconstruction_deterministic_witness :
    DARPModelLB.get_route_summary DARPModelLB.exModelPartial =
      DARPModelLB.get_route_summary DARPModelLB.exModelPartial ∧
    DARPModelLAEB.get_route_summary DARPModelLAEB.exModelPartial =
      DARPModelLAEB.get_route_summary DARPModelLAEB.exModelPartial :=
  ⟨c9_reconstruction_deterministic.1 _ _ rfl rfl rfl,
   c9_reconstruction_deterministic.2 _ _ rfl rfl rfl⟩

/-- C4: Big-M vacuity of the LB formulation.  For any arc parameters and
any `B`, `Q` inside the time-window and capacity box bounds (over any
linear ordered field, so in particular over the reals of the source
model), the time-consistency constraint with
`M_ij = l[i] + s[i] + t[i,j] - e[j]` and the load-consistency constraint
with coefficient `Q_max` are satisfied when `x[i,j] = 0`. -/
theorem c4_bigM_vacuity {α : Type} [LinearOrderedField α]
    (s_i t_ij e_i e_j l_i l_j q_i q_j Qmax B_i B_j Q_i Q_j : α)
    (hBi : e_i ≤ B_i ∧ B_i ≤ l_i) (hBj : e_j ≤ B_j ∧ B_j ≤ l_j)
    (hQi : max 0 q_i ≤ Q_i ∧ Q_i ≤ min Qmax (Qmax + q_i))
    (hQj : max 0 q_j ≤ Q_j ∧ Q_j ≤ min Qmax (Qmax + q_j)) :
    DARPModelLB.time_consistency_arc s_i t_ij e_j l_i B_i B_j 0 ∧
    DARPModelLB.load_consistency_arc q_j Qmax Q_i Q_j 0 := by
  constructor
  · unfold DARPModelLB.time_consistency_arc DARPModelLB.M_LB
    have h1 : B_i ≤ l_i := hBi.2
    have h2 : e_j ≤ B_j := hBj.1
    nlinarith
  · unfold DARPModelLB.load_consistency_arc
    have h1 : Q_i ≤ Qmax := le_trans hQi.2 (min_le_left _ _)
    have h2 : q_j ≤ Q_j := le_trans (le_max_right 0 q_j) hQj.1
    nlinarith

/-- C4 witness: a concrete rational arc with `x = 0` and in-box values. -/
theorem c4_bigM_vacuity_witness :
    DARPModelLB.time_consistency_arc (1 : ℚ) 7 0 2 1 1 0 ∧
    DARPModelLB.load_consistency_arc (-1 : ℚ) 3 1 0 0 :=
  c4_bigM_vacuity 1 7 0 0 2 2 1 (-1) 3 1 1 1 0
    (by norm_num) (by norm_num) (by norm_num) (by norm_num)

/-- C3: the LB subset enumeration engine generates exactly the subsets of
customer nodes, augmented with the start depot, that contain some
request's delivery node but not that request's pickup node; and the
precedence-pairing family emits, for each generated subset `S`, the single
constraint `Σ_{(i,j)∈A, i,j∈S} x[i,j] ≤ |S| − 2`. -/
theorem c3_subset_enumeration (Requests : List ℕ) (P D : List String) :
    (∀ S : Finset String,
      S ∈ DARPModelLB.generate_s_sets Requests P D ↔
        ∃ T : Finset String, T ⊆ (P ++ D).toFinset ∧ T.Nonempty ∧
          S = insert "0_start" T ∧
          DARPModelLB.hasDeliveryWithoutPickup Requests S = true) ∧
    (∀ (d : DARPModelLB.LBData) (x : String × String → ℚ),
      DARPModelLB.precedence_pairing d x ↔
        ∀ S ∈ DARPModelLB.generate_s_sets d.Requests d.P d.D,
          ((DARPModelLB.arcs_in_S d.A S).map x).sum ≤ (S.card : ℚ) - 2) := by
  constructor
  · intro S
    constructor
    · intro hS
      simp only [DARPModelLB.generate_s_sets, List.mem_filterMap, List.mem_filter,
        List.mem_sublists] at hS
      obtain ⟨sub, ⟨hsub, hne⟩, hemit⟩ := hS
      by_cases hpred :
          DARPModelLB.hasDeliveryWithoutPickup Requests (insert "0_start" sub.toFinset) = true
      · rw [if_pos hpred] at hemit
        obtain rfl : insert "0_start" sub.toFinset = S := by
          simpa using hemit
        refine ⟨sub.toFinset, ?_, ?_, rfl, hpred⟩
        · intro a ha
          rw [List.mem_toFinset] at ha ⊢
          exact hsub.subset ha
        · have hne' : sub ≠ [] := by
            simpa [List.isEmpty_iff] using hne
          obtain ⟨a, ha⟩ := List.exists_mem_of_ne_nil sub hne'
          exact ⟨a, List.mem_toFinset.mpr ha⟩
      · rw [if_neg hpred] at hemit
        cases hemit
    · rintro ⟨T, hT, ⟨a, haT⟩, rfl, hpred⟩
      simp only [DARPModelLB.generate_s_sets, List.mem_filterMap, List.mem_filter,
        List.mem_sublists]
      refine ⟨(P ++ D).filter (fun z => z ∈ T), ⟨List.filter_sublist _, ?_⟩, ?_⟩
      · have haPD : a ∈ P ++ D := List.mem_toFinset.mp (hT haT)
        have hmem : a ∈ (P ++ D).filter (fun z => z ∈ T) :=
          List.mem_filter.mpr ⟨haPD, by simpa using haT⟩
        simpa [List.isEmpty_iff] using List.ne_nil_of_mem hmem
      · have hTeq : ((P ++ D).filter (fun z => z ∈ T)).toFinset = T := by
          ext z
          simp only [List.mem_toFinset, List.mem_filter, decide_eq_true_eq]
          constructor
          · rintro ⟨-, hz⟩
            exact hz
          · intro hz
            exact ⟨List.mem_toFinset.mp (hT hz), hz⟩
        rw [hTeq, if_pos hpred]
  · intro d x
    exact Iff.rfl

namespace DARPModelLAEB

/-- Filtering the emitted (3b) family for the key `(i, j)` is the same as
emitting over only the index pairs equal to `(i, j)`. -/
theorem tc_filter_exchange (A : List (Event × Event)) (i j : String) :
    ∀ l : List (String × String),
      ((l.filterMap (tc_emit A)).filter (fun c => c.i = i ∧ c.j = j))
      = ((l.filter (fun p => p = (i, j))).filterMap (tc_emit A)) := by
  intro l
  induction l with
  | nil => rfl
  | cons p l ih =>
      cases hemit : tc_emit A p with
      | none =>
          by_cases hp : p = (i, j)
          · subst hp
            simp [List.filterMap_cons, List.filter_cons, hemit]
            simpa using ih
          · simp [List.filterMap_cons, List.filter_cons, hemit, hp]
            simpa using ih
      | some c =>
          have hci : c.i = p.1 ∧ c.j = p.2 := by
            simp only [tc_emit] at hemit
            by_cases hrel : (relevant_arcs A p.1 p.2).isEmpty
            · rw [if_pos hrel] at hemit
              cases hemit
            · rw [if_neg hrel] at hemit
              cases hemit
              exact ⟨rfl, rfl⟩
          by_cases hp : p = (i, j)
          · subst hp
            simp [List.filterMap_cons, List.filter_cons, hemit, hci.1, hci.2]
            simpa using ih
          · have hkey : ¬(c.i = i ∧ c.j = j) := by
              rintro ⟨h1, h2⟩
              rw [hci.1] at h1
              rw [hci.2] at h2
              exact hp (Prod.ext h1 h2)
            simp [List.filterMap_cons, List.filter_cons, hemit, hp, hkey]
            simpa using ih

/-- In a duplicate-free list, filtering for equality with a member yields
the singleton. -/
theorem filter_eq_singleton_of_nodup {α : Type} [DecidableEq α]
    {l : List α} (hl : l.Nodup) {a : α} (ha : a ∈ l) :
    l.filter (fun z => z = a) = [a] := by
  have h := List.filter_eq l a
  rw [List.count_eq_one_of_mem hl ha] at h
  simpa using h

end DARPModelLAEB

/-- C5: in the LAEB formulation, for every ordered pair `(i, j)` of
physical locations: when at least one event-arc connects an event at `i`
to an event at `j`, exactly one aggregated time-consistency constraint is
emitted for the pair, carrying exactly the group of those event-arcs and
stating `B̄[j] ≥ B̄[i] + s[i] + travel(i,j) − M_ij (1 − Σ x over the
group)`; when no event-arc connects `i` to `j`, no constraint is emitted
for the pair. -/
theorem c5_laeb_time_consistency (J : List String)
    (A : List (DARPModelLAEB.Event × DARPModelLAEB.Event)) (i j : String)
    (hJ : J.Nodup) (hi : i ∈ J) (hj : j ∈ J) :
    (DARPModelLAEB.relevant_arcs A i j ≠ [] →
      (DARPModelLAEB.time_consistency_family J A).filter
          (fun c => c.i = i ∧ c.j = j)
        = [⟨i, j, DARPModelLAEB.relevant_arcs A i j⟩]) ∧
    (DARPModelLAEB.relevant_arcs A i j = [] →
      ∀ c ∈ DARPModelLAEB.time_consistency_family J A, ¬(c.i = i ∧ c.j = j)) ∧
    (∀ c ∈ DARPModelLAEB.time_consistency_family J A,
      c.arcs = DARPModelLAEB.relevant_arcs A c.i c.j ∧ c.arcs ≠ [] ∧
      (∀ (s e l : String → ℚ) (travel : String → String → ℚ)
          (x : DARPModelLAEB.Event × DARPModelLAEB.Event → ℚ) (Bbar : String → ℚ),
        DARPModelLAEB.time_consistency_holds s e l travel x Bbar c ↔
          Bbar c.j ≥ Bbar c.i + s c.i + travel c.i c.j -
            (l c.i + s c.i + travel c.i c.j - e c.j) *
              (1 - (c.arcs.map x).sum))) := by
  refine ⟨fun hrel => ?_, fun hrel c hc hkey => ?_, fun c hc => ?_⟩
  · unfold DARPModelLAEB.time_consistency_family
    rw [DARPModelLAEB.tc_filter_exchange,
      DARPModelLAEB.filter_eq_singleton_of_nodup (hJ.product hJ)
        (List.mem_product.mpr ⟨hi, hj⟩)]
    have hrel' : (DARPModelLAEB.relevant_arcs A i j).isEmpty = false := by
      simpa [List.isEmpty_iff] using hrel
    simp [List.filterMap_cons, DARPModelLAEB.tc_emit, hrel']
  · simp only [DARPModelLAEB.time_consistency_family, List.mem_filterMap] at hc
    obtain ⟨p, -, hemit⟩ := hc
    simp only [DARPModelLAEB.tc_emit] at hemit
    by_cases hrelp : (DARPModelLAEB.relevant_arcs A p.1 p.2).isEmpty
    · rw [if_pos hrelp] at hemit
      cases hemit
    · rw [if_neg hrelp] at hemit
      obtain rfl : (⟨p.1, p.2, DARPModelLAEB.relevant_arcs A p.1 p.2⟩ :
          DARPModelLAEB.TimeConsCon) = c := by simpa using hemit
      simp only at hkey
      obtain ⟨h1, h2⟩ := hkey
      rw [h1, h2] at hrelp
      rw [hrel] at hrelp
      exact hrelp rfl
  · simp only [DARPModelLAEB.time_consistency_family, List.mem_filterMap] at hc
    obtain ⟨p, -, hemit⟩ := hc
    simp only [DARPModelLAEB.tc_emit] at hemit
    by_cases hrelp : (DARPModelLAEB.relevant_arcs A p.1 p.2).isEmpty
    · rw [if_pos hrelp] at hemit
      cases hemit
    · rw [if_neg hrelp] at hemit
      obtain rfl : (⟨p.1, p.2, DARPModelLAEB.relevant_arcs A p.1 p.2⟩ :
          DARPModelLAEB.TimeConsCon) = c := by simpa using hemit
      refine ⟨rfl, by simpa [List.isEmpty_iff] using hrelp, ?_⟩
      intro s e l travel x Bbar
      exact Iff.rfl

/-- C5 witness: on the laeb_example.py event graph, the pair
`('1+', '1-')` (connected by one event-arc) receives exactly one
aggregated constraint, and the disconnected pair `('1-', '1+')` receives
none. -/
theorem c5_laeb_time_consistency_witness :
    ((DARPModelLAEB.time_consistency_family DARPModelLAEB.exJ DARPModelLAEB.exArcs).filter
        (fun c => c.i = "1+" ∧ c.j = "1-")
      = [⟨"1+", "1-", DARPModelLAEB.relevant_arcs DARPModelLAEB.exArcs "1+" "1-"⟩]) ∧
    (∀ c ∈ DARPModelLAEB.time_consistency_family DARPModelLAEB.exJ DARPModelLAEB.exArcs,
      ¬(c.i = "1-" ∧ c.j = "1+")) :=
  ⟨(c5_laeb_time_consistency DARPModelLAEB.exJ DARPModelLAEB.exArcs "1+" "1-"
      (by decide) (by decide) (by decide)).1 (by decide),
   (c5_laeb_time_consistency DARPModelLAEB.exJ DARPModelLAEB.exArcs "1-" "1+"
      (by decide) (by decide) (by decide)).2.1 (by decide)⟩

/-- C3 witness-style check: on the one-request instance the generated
family is exactly the one subset `{'0_start', '1-'}`. -/
theorem c3_subset_enumeration_witness :
    ({"0_start", "1-"} : Finset String) ∈ DARPModelLB.generate_s_sets [1] ["1+"] ["1-"] :=
  ((c3_subset_enumeration [1] ["1+"] ["1-"]).1 _).mpr
    ⟨{"1-"}, by decide, by decide, by decide, by decide⟩

/-- C7 witness: concrete arcs of the one-request instance. -/
theorem c7_node_arc_builder_witness :
    ("1+", "0_start") ∉ DARPModelLB.build_A (DARPModelLB.build_J ["1+"] ["1-"]) ∧
    ("1+", "1-") ∈ DARPModelLB.build_A (DARPModelLB.build_J ["1+"] ["1-"]) :=
  ⟨(c7_node_arc_builder ["1+"] ["1-"]).2.2.1 "1+",
   ((c7_node_arc_builder ["1+"] ["1-"]).2.1 "1+" "1-").mpr (by decide)⟩

/-! Generic termination analysis of the successor walks. -/

/-- Splitting an iterated step. -/
theorem iterStep_add {α : Type} (σ : α → Option α) :
    ∀ (a b : ℕ) (c : α),
      iterStep σ (a + b) c =
        match iterStep σ a c with
        | none => none
        | some m => iterStep σ b m := by
  intro a
  induction a with
  | zero => intro b c; simp [iterStep]
  | succ a ih =>
      intro b c
      rw [Nat.succ_add]
      cases hσ : σ c with
      | none => simp [iterStep, hσ]
      | some n => simp [iterStep, hσ, ih]

/-- If the walk runs out of fuel, every iterate within the fuel exists. -/
theorem genWalk_false_isSome {α : Type} (σ : α → Option α) :
    ∀ (fuel : ℕ) (c : α), genWalk σ fuel c = false →
      ∀ k ≤ fuel, (iterStep σ k c).isSome := by
  intro fuel
  induction fuel with
  | zero =>
      intro c _ k hk
      obtain rfl : k = 0 := Nat.le_zero.mp hk
      simp [iterStep]
  | succ fuel ih =>
      intro c h k hk
      cases hσ : σ c with
      | none => simp [genWalk, hσ] at h
      | some n =>
          cases k with
          | zero => simp [iterStep]
          | succ k =>
              have h' : genWalk σ fuel n = false := by
                simpa [genWalk, hσ] using h
              have := ih n h' k (Nat.le_of_succ_le_succ hk)
              simpa [iterStep, hσ] using this

/-- Every value reached by at least one step lands in `T` when `σ` maps
into `T`. -/
theorem iterStep_mem {α : Type} (σ : α → Option α) (T : Finset α)
    (hT : ∀ c n, σ c = some n → n ∈ T) :
    ∀ (k : ℕ) (c m : α), iterStep σ (k + 1) c = some m → m ∈ T := by
  intro k
  induction k with
  | zero =>
      intro c m h
      cases hσ : σ c with
      | none => simp [iterStep, hσ] at h
      | some n =>
          have hnm : n = m := by simpa [iterStep, hσ] using h
          exact hnm ▸ hT c n hσ
  | succ k ih =>
      intro c m h
      cases hσ : σ c with
      | none => simp [iterStep, hσ] at h
      | some n => exact ih n m (by simpa [iterStep, hσ] using h)

/-- More fuel preserves a finished walk. -/
theorem genWalk_mono {α : Type} (σ : α → Option α) :
    ∀ (fuel fuel' : ℕ) (c : α), genWalk σ fuel c = true → fuel ≤ fuel' →
      genWalk σ fuel' c = true := by
  intro fuel
  induction fuel with
  | zero => intro fuel' c h _; simp [genWalk] at h
  | succ fuel ih =>
      intro fuel' c h hle
      obtain ⟨f', rfl⟩ : ∃ f', fuel' = f' + 1 := ⟨fuel' - 1, by omega⟩
      cases hσ : σ c with
      | none => simp [genWalk, hσ]
      | some n =>
          have h' : genWalk σ fuel n = true := by simpa [genWalk, hσ] using h
          have h'' : genWalk σ f' n = true := ih f' n h' (by omega)
          simpa [genWalk, hσ] using h''

/-- Pigeonhole termination: when the successor function maps into the
finite set `T` and has no cycle, the walk finishes within `|T| + 1`
steps. -/
theorem genWalk_terminates {α : Type} [DecidableEq α] (σ : α → Option α)
    (T : Finset α) (hT : ∀ c n, σ c = some n → n ∈ T)
    (hnc : ∀ (n : α) (k : ℕ), 0 < k → iterStep σ k n ≠ some n) (c : α) :
    genWalk σ (T.card + 1) c = true := by
  by_contra hfalse
  have hfalse' : genWalk σ (T.card + 1) c = false := by
    cases h : genWalk σ (T.card + 1) c
    · rfl
    · exact absurd h hfalse
  have hsome : ∀ k ≤ T.card + 1, (iterStep σ k c).isSome :=
    genWalk_false_isSome σ _ c hfalse'
  have hgs : ∀ i ≤ T.card + 1,
      iterStep σ i c = some ((iterStep σ i c).getD c) := by
    intro i hi
    obtain ⟨m, hm⟩ := Option.isSome_iff_exists.mp (hsome i hi)
    rw [hm]
    rfl
  have hmaps : ∀ i ∈ Finset.Icc 1 (T.card + 1),
      (iterStep σ i c).getD c ∈ T := by
    intro i hi
    rw [Finset.mem_Icc] at hi
    obtain ⟨k, rfl⟩ : ∃ k, i = k + 1 := ⟨i - 1, by omega⟩
    exact iterStep_mem σ T hT k c _ (hgs (k + 1) (by omega))
  have hcard : T.card < (Finset.Icc 1 (T.card + 1)).card := by
    rw [Nat.card_Icc]
    omega
  obtain ⟨i, hi, j, hj, hne, heq⟩ :=
    Finset.exists_ne_map_eq_of_card_lt_of_maps_to hcard hmaps
  rw [Finset.mem_Icc] at hi hj
  have key : ∀ i j : ℕ, 1 ≤ i → i < j → j ≤ T.card + 1 →
      (iterStep σ i c).getD c = (iterStep σ j c).getD c → False := by
    intro i j h1 hij hj2 hgij
    have h0 : iterStep σ (i + (j - i)) c = some ((iterStep σ j c).getD c) := by
      rw [show i + (j - i) = j from by omega]
      exact hgs j (by omega)
    rw [iterStep_add σ i (j - i) c, hgs i (by omega)] at h0
    rw [← hgij] at h0
    exact hnc _ (j - i) (by omega) h0
  rcases Nat.lt_or_ge i j with hij | hij
  · exact key i j hi.1 hij hj.2 heq
  · have hji : j < i := by omega
    exact key j i hj.1 hji hi.2 heq.symm

/-- A chain extracted from an iterated step: the visited nodes are linked
by `σ`-edges, every node of the chain except the endpoint is a `σ`-source,
and every node except the start is a `σ`-target. -/
theorem iter_chain {α : Type} (σ : α → Option α) :
    ∀ (k : ℕ) (n m : α), iterStep σ (k + 1) n = some m →
      ∃ l : List α,
        List.Chain (fun a b => σ a = some b) n (l ++ [m]) ∧
        (∀ z ∈ n :: l, (σ z).isSome) ∧
        (∀ z ∈ l ++ [m], ∃ w, σ w = some z) := by
  intro k
  induction k with
  | zero =>
      intro n m h
      cases hσ : σ n with
      | none => simp [iterStep, hσ] at h
      | some n' =>
          have hnm : n' = m := by simpa [iterStep, hσ] using h
          subst hnm
          refine ⟨[], List.Chain.cons hσ List.Chain.nil, ?_, ?_⟩
          · intro z hz
            obtain rfl : z = n := by simpa using hz
            simp [hσ]
          · intro z hz
            obtain rfl : z = n' := by simpa using hz
            exact ⟨n, hσ⟩
  | succ k ih =>
      intro n m h
      cases hσ : σ n with
      | none => simp [iterStep, hσ] at h
      | some n1 =>
          have h' : iterStep σ (k + 1) n1 = some m := by
            simpa [iterStep, hσ] using h
          obtain ⟨l1, hchain, hsrc, htgt⟩ := ih n1 m h'
          refine ⟨n1 :: l1, List.Chain.cons hσ hchain, ?_, ?_⟩
          · intro z hz
            rcases List.mem_cons.mp hz with rfl | hz'
            · simp [hσ]
            · exact hsrc z hz'
          · intro z hz
            rcases List.mem_cons.mp hz with rfl | hz'
            · exact ⟨n, hσ⟩
            · exact htgt z hz'

/-- A rank function increasing along every edge between `ok` nodes rules
out a directed cycle among `ok` nodes. -/
theorem no_cycle_of_rank {α : Type} (edges : List (α × α)) (ok : α → Prop)
    (rank : α → ℕ)
    (hr : ∀ p ∈ edges, ok p.1 → ok p.2 → rank p.1 < rank p.2) :
    ¬ hasDirectedCycle edges ok := by
  rintro ⟨n, l, hchain, hok⟩
  have aux : ∀ (l' : List α) (a : α),
      List.Chain (fun x y => (x, y) ∈ edges) a l' → ok a → (∀ b ∈ l', ok b) →
      ∀ b, l'.getLast? = some b → rank a < rank b := by
    intro l'
    induction l' with
    | nil => intro a _ _ _ b hb; cases hb
    | cons x xs ih =>
        intro a hchain hoka hokl b hb
        rw [List.chain_cons] at hchain
        obtain ⟨hax, hxs⟩ := hchain
        have hokx : ok x := hokl x (by simp)
        cases xs with
        | nil =>
            obtain rfl : x = b := by simpa using hb
            exact hr (a, x) hax hoka hokx
        | cons y ys =>
            have h1 : rank a < rank x := hr (a, x) hax hoka hokx
            have h2 : rank x < rank b := by
              refine ih x hxs hokx (fun z hz => hokl z (by simp [hz])) b ?_
              simpa [List.getLast?_cons_cons] using hb
            omega
  have hokn : ok n := hok n (by simp)
  have hend : (l ++ [n]).getLast? = some n := List.getLast?_concat l
  have : rank n < rank n := by
    refine aux (l ++ [n]) n hchain hokn ?_ n hend
    intro b hb
    rcases List.mem_append.mp hb with hb' | hb'
    · exact hok b (by simp [hb'])
    · obtain rfl : b = n := by simpa using hb'
      exact hokn
  omega

namespace DARPModelLB

/-- What one LB walk step reveals: the current node is not the end depot
and the step follows a leg of `routes`. -/
theorem stepLB_some (routes : List LegLB) (c n : String)
    (h : stepLB routes c = some n) :
    c ≠ "0_end" ∧ ∃ r ∈ routes, r.frm = c ∧ r.tgt = n := by
  unfold stepLB at h
  by_cases hc : c = "0_end"
  · rw [if_pos hc] at h
    cases h
  · rw [if_neg hc] at h
    cases hf : routes.find? (fun r => r.frm = c) with
    | none => rw [hf] at h; cases h
    | some leg =>
        rw [hf] at h
        obtain rfl : leg.tgt = n := by simpa using h
        refine ⟨hc, leg, List.mem_of_find?_eq_some hf, ?_, rfl⟩
        simpa using List.find?_some hf

/-- If the selected LB arcs have no directed cycle among non-depot nodes
and never target the start depot, the step function has no cycle. -/
theorem lb_no_iter_cycle (routes : List LegLB)
    (harcs : ∀ r ∈ routes, r.tgt ≠ "0_start")
    (hnc : ¬ hasDirectedCycle (legEdges routes)
        (fun s => s ≠ "0_start" ∧ s ≠ "0_end")) :
    ∀ (n : String) (k : ℕ), 0 < k → iterStep (stepLB routes) k n ≠ some n := by
  intro n k hk hcyc
  obtain ⟨k', rfl⟩ : ∃ k', k = k' + 1 := ⟨k - 1, by omega⟩
  obtain ⟨l, hchain, hsrc, htgt⟩ := iter_chain (stepLB routes) k' n n hcyc
  apply hnc
  refine ⟨n, l, ?_, ?_⟩
  · refine List.Chain.imp (fun a b hab => ?_) hchain
    obtain ⟨-, r, hr, hfrm, htg⟩ := stepLB_some routes a b hab
    exact List.mem_map.mpr ⟨r, hr, by rw [hfrm, htg]⟩
  · intro m hm
    constructor
    · have hmt : m ∈ l ++ [n] := by
        rcases List.mem_cons.mp hm with rfl | h'
        · exact List.mem_append.mpr (Or.inr (by simp))
        · exact List.mem_append.mpr (Or.inl h')
      obtain ⟨w, hw⟩ := htgt m hmt
      obtain ⟨-, r, hr, -, htg⟩ := stepLB_some routes w m hw
      rw [← htg]
      exact harcs r hr
    · obtain ⟨v, hv⟩ := Option.isSome_iff_exists.mp (hsrc m hm)
      exact (stepLB_some routes m v hv).1

/-- The finished-flag of the LB walk is the generic walk over `stepLB`. -/
theorem walk_flag (routes : List LegLB) :
    ∀ (fuel : ℕ) (c : String) (acc : RouteInfoLB),
      (walk routes fuel c acc).2 = genWalk (stepLB routes) fuel c := by
  intro fuel
  induction fuel with
  | zero => intro c acc; rfl
  | succ fuel ih =>
      intro c acc
      by_cases hc : c = "0_end"
      · simp [walk, genWalk, stepLB, hc]
      · cases hf : routes.find? (fun r => r.frm = c) with
        | none => simp [walk, genWalk, stepLB, hc, hf]
        | some leg => simp [walk, genWalk, stepLB, hc, hf, ih]

end DARPModelLB

namespace DARPModelLAEB

/-- What one LAEB walk step reveals: the step follows an active event-arc
whose target is not at the depot location. -/
theorem stepLAEB_some (active : List (Event × Event)) (c v : Event)
    (h : stepLAEB active c = some v) :
    (c, v) ∈ active ∧ v.loc ≠ "0" := by
  cases hf : active.find? (fun a => a.1 = c) with
  | none => simp [stepLAEB, hf] at h
  | some a =>
      simp only [stepLAEB, hf] at h
      by_cases hl : a.2.loc = "0"
      · rw [if_pos hl] at h
        cases h
      · rw [if_neg hl] at h
        obtain rfl : a.2 = v := by simpa using h
        have h1 : a.1 = c := by simpa using List.find?_some hf
        have h2 : (a.1, a.2) ∈ active := by
          simpa using List.mem_of_find?_eq_some hf
        rw [h1] at h2
        exact ⟨h2, hl⟩

/-- If the active event-arcs have no directed cycle among non-depot
events, the LAEB step function has no cycle. -/
theorem laeb_no_iter_cycle (active : List (Event × Event))
    (hnc : ¬ hasDirectedCycle active (fun v => v.loc ≠ "0")) :
    ∀ (n : Event) (k : ℕ), 0 < k → iterStep (stepLAEB active) k n ≠ some n := by
  intro n k hk hcyc
  obtain ⟨k', rfl⟩ : ∃ k', k = k' + 1 := ⟨k - 1, by omega⟩
  obtain ⟨l, hchain, -, htgt⟩ := iter_chain (stepLAEB active) k' n n hcyc
  apply hnc
  refine ⟨n, l, ?_, ?_⟩
  · exact List.Chain.imp (fun a b hab => (stepLAEB_some active a b hab).1) hchain
  · intro m hm
    have hmt : m ∈ l ++ [n] := by
      rcases List.mem_cons.mp hm with rfl | h'
      · exact List.mem_append.mpr (Or.inr (by simp))
      · exact List.mem_append.mpr (Or.inl h')
    obtain ⟨w, hw⟩ := htgt m hmt
    exact (stepLAEB_some active w m hw).2

/-- The finished-flag of the LAEB walk is the generic walk over
`stepLAEB`. -/
theorem walk_flag_laeb (active : List (Event × Event)) (Bbar : String → ℚ) :
    ∀ (fuel : ℕ) (c : Event) (acc : RouteLAEB),
      (walk active Bbar fuel c acc).2 = genWalk (stepLAEB active) fuel c := by
  intro fuel
  induction fuel with
  | zero => intro c acc; rfl
  | succ fuel ih =>
      intro c acc
      cases hf : active.find? (fun a => a.1 = c) with
      | none => simp [walk, genWalk, stepLAEB, hf]
      | some a =>
          by_cases hl : a.2.loc = "0"
          · simp [walk, genWalk, stepLAEB, hf, hl]
          · simp [walk, genWalk, stepLAEB, hf, hl, ih]

end DARPModelLAEB

namespace DARPModelLB

/-- On the cyclic selection `1+ → 1- → 1+`, the generic walk never
finishes from either node, whatever the fuel. -/
theorem cyc_genWalk_false :
    ∀ (fuel : ℕ) (c : String), (c = "1+" ∨ c = "1-") →
      genWalk (stepLB exCycRoutes) fuel c = false := by
  intro fuel
  induction fuel with
  | zero => intro c _; rfl
  | succ fuel ih =>
      rintro c (rfl | rfl)
      · have hσ : stepLB exCycRoutes "1+" = some "1-" := by decide
        have h := ih "1-" (Or.inr rfl)
        simpa [genWalk, hσ] using h
      · have hσ : stepLB exCycRoutes "1-" = some "1+" := by decide
        have h := ih "1+" (Or.inl rfl)
        simpa [genWalk, hσ] using h

end DARPModelLB

namespace DARPModelLAEB

/-- On the cyclic active event-arcs between the events at `1+` and `1-`,
the generic walk never finishes from either event, whatever the fuel. -/
theorem cyc_genWalk_false_laeb :
    ∀ (fuel : ℕ) (c : Event),
      (c = ⟨"1+", [1]⟩ ∨ c = ⟨"1-", [2]⟩) →
      genWalk (stepLAEB exCycArcs) fuel c = false := by
  intro fuel
  induction fuel with
  | zero => intro c _; rfl
  | succ fuel ih =>
      rintro c (rfl | rfl)
      · have hσ : stepLAEB exCycArcs ⟨"1+", [1]⟩ = some ⟨"1-", [2]⟩ := by decide
        have h := ih ⟨"1-", [2]⟩ (Or.inr rfl)
        simpa [genWalk, hσ] using h
      · have hσ : stepLAEB exCycArcs ⟨"1-", [2]⟩ = some ⟨"1+", [1]⟩ := by decide
        have h := ih ⟨"1+", [1]⟩ (Or.inl rfl)
        simpa [genWalk, hσ] using h

end DARPModelLAEB

/-- C10: if the selected arcs contain no directed cycle among non-depot
nodes/events, every successor walk of `get_route_summary` terminates with
the fuel the reconstruction supplies (the LB walk reaches `'0_end'` or a
node with no successor; the LAEB loop exits); and without this
precondition the walk can fail to terminate: there are cyclic selections
on which the loop never exits, whatever the fuel. -/
theorem c10_walk_termination :
    (∀ routes : List DARPModelLB.LegLB,
      (∀ r ∈ routes, r.tgt ≠ "0_start") →
      ¬ hasDirectedCycle (DARPModelLB.legEdges routes)
          (fun s => s ≠ "0_start" ∧ s ≠ "0_end") →
      ∀ (c : String) (acc : DARPModelLB.RouteInfoLB),
        (DARPModelLB.walk routes (routes.length + 1) c acc).2 = true) ∧
    (∀ (active : List (DARPModelLAEB.Event × DARPModelLAEB.Event))
        (Bbar : String → ℚ),
      ¬ hasDirectedCycle active (fun v => v.loc ≠ "0") →
      ∀ (c : DARPModelLAEB.Event) (acc : DARPModelLAEB.RouteLAEB),
        (DARPModelLAEB.walk active Bbar (active.length + 1) c acc).2 = true) ∧
    (∃ (routes : List DARPModelLB.LegLB) (c : String),
      hasDirectedCycle (DARPModelLB.legEdges routes)
        (fun s => s ≠ "0_start" ∧ s ≠ "0_end") ∧
      ∀ (fuel : ℕ) (acc : DARPModelLB.RouteInfoLB),
        (DARPModelLB.walk routes fuel c acc).2 = false) ∧
    (∃ (active : List (DARPModelLAEB.Event × DARPModelLAEB.Event))
        (c : DARPModelLAEB.Event),
      hasDirectedCycle active (fun v => v.loc ≠ "0") ∧
      ∀ (fuel : ℕ) (Bbar : String → ℚ) (acc : DARPModelLAEB.RouteLAEB),
        (DARPModelLAEB.walk active Bbar fuel c acc).2 = false) := by
  refine ⟨?_, ?_, ?_, ?_⟩
  · intro routes harcs hnc c acc
    rw [DARPModelLB.walk_flag]
    have hT : ∀ c n, DARPModelLB.stepLB routes c = some n →
        n ∈ (routes.map (fun r => r.tgt)).toFinset := by
      intro c n h
      obtain ⟨-, r, hr, -, htg⟩ := DARPModelLB.stepLB_some routes c n h
      exact List.mem_toFinset.mpr (List.mem_map.mpr ⟨r, hr, htg⟩)
    have hterm := genWalk_terminates (DARPModelLB.stepLB routes)
      ((routes.map (fun r => r.tgt)).toFinset) hT
      (DARPModelLB.lb_no_iter_cycle routes harcs hnc) c
    refine genWalk_mono _ _ _ _ hterm ?_
    have h1 : ((routes.map (fun r => r.tgt)).toFinset).card ≤ routes.length := by
      refine le_trans (List.toFinset_card_le _) ?_
      simp
    omega
  · intro active Bbar hnc c acc
    rw [DARPModelLAEB.walk_flag_laeb]
    have hT : ∀ c n, DARPModelLAEB.stepLAEB active c = some n →
        n ∈ (active.map (fun a => a.2)).toFinset := by
      intro c n h
      have hmem := (DARPModelLAEB.stepLAEB_some active c n h).1
      exact List.mem_toFinset.mpr (List.mem_map.mpr ⟨(c, n), hmem, rfl⟩)
    have hterm := genWalk_terminates (DARPModelLAEB.stepLAEB active)
      ((active.map (fun a => a.2)).toFinset) hT
      (DARPModelLAEB.laeb_no_iter_cycle active hnc) c
    refine genWalk_mono _ _ _ _ hterm ?_
    have h1 : ((active.map (fun a => a.2)).toFinset).card ≤ active.length := by
      refine le_trans (List.toFinset_card_le _) ?_
      simp
    omega
  · refine ⟨DARPModelLB.exCycRoutes, "1+",
      ⟨"1+", ["1-"],
        List.Chain.cons (by decide) (List.Chain.cons (by decide) List.Chain.nil),
        by decide⟩, ?_⟩
    intro fuel acc
    rw [DARPModelLB.walk_flag]
    exact DARPModelLB.cyc_genWalk_false fuel "1+" (Or.inl rfl)
  · refine ⟨DARPModelLAEB.exCycArcs, ⟨"1+", [1]⟩,
      ⟨⟨"1+", [1]⟩, [⟨"1-", [2]⟩],
        List.Chain.cons (by decide) (List.Chain.cons (by decide) List.Chain.nil),
        by decide⟩, ?_⟩
    intro fuel Bbar acc
    rw [DARPModelLAEB.walk_flag_laeb]
    exact DARPModelLAEB.cyc_genWalk_false_laeb fuel ⟨"1+", [1]⟩ (Or.inl rfl)

/-- C10 witness: the acyclic decoded selections of the two example
instances terminate with the reconstruction's own fuel. -/
theorem c10_walk_termination_witness :
    (DARPModelLB.walk DARPModelLB.exRoutes (DARPModelLB.exRoutes.length + 1)
      "1+" ⟨["0_start", "1+"], [0, 5], [0, 1]⟩).2 = true ∧
    (DARPModelLAEB.walk DARPModelLAEB.exArcs (fun _ => 0)
      (DARPModelLAEB.exArcs.length + 1) ⟨"1+", [1]⟩ ⟨["0", "1+"], [0, 0]⟩).2 = true :=
  ⟨c10_walk_termination.1 DARPModelLB.exRoutes (by decide)
      (no_cycle_of_rank _ _
        (fun s => if s = "0_start" then 0 else if s = "1+" then 1
          else if s = "1-" then 2 else 3)
        (by decide))
      "1+" _,
   c10_walk_termination.2.1 DARPModelLAEB.exArcs (fun _ => 0)
      (no_cycle_of_rank _ _
        (fun v => if v.loc = "1+" then 1 else if v.loc = "1-" then 2 else 0)
        (by decide))
      ⟨"1+", [1]⟩ _⟩

/-- Rational threshold evaluations used to decode concrete arc selections. -/
theorem dec_one_gt_half : decide ((1 : ℚ) > 1/2) = true := by
  rw [decide_eq_true_iff]
  norm_num

/-- Rational threshold evaluation for an unselected arc. -/
theorem dec_zero_gt_half : decide ((0 : ℚ) > 1/2) = false := by
  rw [decide_eq_false_iff_not]
  norm_num

/-- The arc list of the one-request LB instance, explicitly. -/
theorem exData_A_eval :
    DARPModelLB.exData.A =
      [("0_start", "1+"), ("0_start", "1-"), ("0_start", "0_end"),
       ("1+", "1-"), ("1+", "0_end"), ("1-", "1+"), ("1-", "0_end")] := by
  decide

/-- C2: when a walk from a start-depot departure reaches a node with no
successor among the selected arcs before arriving at the end depot (LB) or
the depot event (LAEB), `get_route_summary` does not surface any error: it
stores the truncated partial path in the summary as a normal route.  On
the assignment whose only active arc leaves the depot, the LB summary is
the normal entry `['0_start', '1+']` (not ending at `'0_end'`) and the
LAEB summary is the normal route `['0', '1+']` (not ending at `'0'`). -/
theorem c2_dead_end_walk_not_surfaced :
    DARPModelLB.get_route_summary DARPModelLB.exModelPartial =
      .summary [("1+", ⟨["0_start", "1+"], [0, 5], [0, 1]⟩)] ∧
    (["0_start", "1+"] : List String).getLast? ≠ some "0_end" ∧
    DARPModelLAEB.get_route_summary DARPModelLAEB.exModelPartial =
      .summary [⟨["0", "1+"], [0, 5]⟩] ∧
    (["0", "1+"] : List String).getLast? ≠ some "0" := by
  refine ⟨?_, by decide, ?_, by decide⟩
  · simp only [DARPModelLB.get_route_summary, DARPModelLB.exModelPartial,
      exData_A_eval]
    simp [List.filter_cons, List.filterMap_cons, Function.comp,
      DARPModelLB.exXPartial, dec_one_gt_half, dec_zero_gt_half,
      DARPModelLB.exB, DARPModelLB.exQ, DARPModelLB.walk]
    all_goals norm_num
    all_goals decide
  · simp only [DARPModelLAEB.get_route_summary, DARPModelLAEB.exModelPartial]
    simp [List.filter_cons, List.filterMap_cons, Function.comp,
      DARPModelLAEB.exArcs, DARPModelLAEB.depotEvent,
      dec_one_gt_half, dec_zero_gt_half, DARPModelLAEB.exBbar,
      DARPModelLAEB.walk]
    all_goals norm_num
    all_goals decide

namespace DARPModelLB

/-- On a built-but-unsolved LB model the guard of `get_route_summary`
does not fire (the `x` attribute exists), and evaluating the uninitialized
variables raises. -/
theorem get_route_summary_unsolved (m : ModelLB) (h1 : m.hasX = true)
    (h2 : m.sol = none) (h3 : m.A ≠ []) :
    get_route_summary m = .valueError := by
  simp [get_route_summary, h1, h2, List.isEmpty_iff, h3]

end DARPModelLB

namespace DARPModelLAEB

/-- LAEB analogue of `DARPModelLB.get_route_summary_unsolved`. -/
theorem get_route_summary_unsolved_laeb (m : ModelLAEB) (h1 : m.hasX = true)
    (h2 : m.sol = none) (h3 : m.A ≠ []) :
    get_route_summary m = .valueError := by
  simp [get_route_summary, h1, h2, List.isEmpty_iff, h3]

end DARPModelLAEB

/-- C8: invoking route reconstruction before a successful solve does NOT
report "no solution available".  Every model object produced by
`__init__` already has the `x` attribute (it is created by
`_build_model`), so the `hasattr` guard never fires; instead the first
`value()` call on an uninitialized variable raises.  The claimed early
return (`notSolved`) is unreachable on initialized models of either
formulation. -/
theorem c8_guard_never_fires :
    (∀ (b : DARPModelLB.LBBundle) (m : DARPModelLB.ModelLB),
      DARPModelLB.init b = .ok m → m.A ≠ [] →
      DARPModelLB.get_route_summary m = .valueError ∧
      ∀ s, DARPModelLB.get_route_summary m ≠ .notSolved s) ∧
    (∀ (b : DARPModelLAEB.LAEBBundle) (m : DARPModelLAEB.ModelLAEB),
      DARPModelLAEB.init b = .ok m → m.A ≠ [] →
      DARPModelLAEB.get_route_summary m = .valueError ∧
      ∀ s, DARPModelLAEB.get_route_summary m ≠ .notSolved s) := by
  constructor
  · intro b m hinit hA
    have hm : m = DARPModelLB.build_model b := by
      unfold DARPModelLB.init at hinit
      cases hv : DARPModelLB.validate_data b.keys with
      | error e => rw [hv] at hinit; cases hinit
      | ok u =>
          rw [hv] at hinit
          injection hinit with h
          exact h.symm
    subst hm
    have hval := DARPModelLB.get_route_summary_unsolved
      (DARPModelLB.build_model b) rfl rfl hA
    refine ⟨hval, fun s hcontra => ?_⟩
    rw [hval] at hcontra
    cases hcontra
  · intro b m hinit hA
    have hm : m = DARPModelLAEB.build_model b := by
      unfold DARPModelLAEB.init at hinit
      cases hv : DARPModelLAEB.validate_data b.keys with
      | error e => rw [hv] at hinit; cases hinit
      | ok u =>
          rw [hv] at hinit
          injection hinit with h
          exact h.symm
    subst hm
    have hval := DARPModelLAEB.get_route_summary_unsolved_laeb
      (DARPModelLAEB.build_model b) rfl rfl hA
    refine ⟨hval, fun s hcontra => ?_⟩
    rw [hval] at hcontra
    cases hcontra

/-- C8 witness: constructing the models from the example bundles and
reconstructing before any solve yields the raised-value outcome, not the
"not solved" message. -/
theorem c8_guard_never_fires_witness :
    DARPModelLB.get_route_summary (DARPModelLB.build_model DARPModelLB.exBundle) =
      .valueError ∧
    DARPModelLAEB.get_route_summary
      (DARPModelLAEB.build_model DARPModelLAEB.exBundle) = .valueError :=
  ⟨(c8_guard_never_fires.1 DARPModelLB.exBundle _ rfl (by decide)).1,
   (c8_guard_never_fires.2 DARPModelLAEB.exBundle _ rfl (by decide)).1⟩

/-- Node list of the one-request LB instance, explicitly. -/
theorem exData_J_eval :
    DARPModelLB.exData.J = ["0_start", "1+", "1-", "0_end"] := by decide

/-- Customer node list of the one-request LB instance, explicitly. -/
theorem exData_Jc_eval : DARPModelLB.exData.Jc = ["1+", "1-"] := by decide

/-- The generated S-set family of the one-request LB instance, explicitly. -/
theorem exData_gen_eval :
    DARPModelLB.generate_s_sets DARPModelLB.exData.Requests
      DARPModelLB.exData.P DARPModelLB.exData.D
      = [({"0_start", "1-"} : Finset String)] := by decide

/-- Python node names of request 1. -/
theorem node_names_one :
    DARPModelLB.pickupNode 1 = "1+" ∧ DARPModelLB.deliveryNode 1 = "1-" := by decide

/-- The assignment `exX`/`exB`/`exQ` satisfies every constraint family and
every variable domain of the LB model on the one-request instance — it is
feasible although it activates the uncounted arc `('0_start', '0_end')`. -/
theorem exLB_feasible :
    DARPModelLB.feasibleLB DARPModelLB.exData DARPModelLB.exX
      DARPModelLB.exB DARPModelLB.exQ := by
  refine ⟨?_, ?_, ?_, ?_, ?_, ?_, ?_, ?_, ?_, ?_, ?_⟩
  · unfold DARPModelLB.visit_once
    simp only [exData_Jc_eval, exData_J_eval, exData_A_eval]
    intro j hj
    fin_cases hj <;> simp [DARPModelLB.exX, List.filter_cons]
  · unfold DARPModelLB.leave_once
    simp only [exData_Jc_eval, exData_J_eval, exData_A_eval]
    intro i hi
    fin_cases hi <;> simp [DARPModelLB.exX, List.filter_cons]
  · unfold DARPModelLB.fleet_limit
    simp only [exData_A_eval]
    simp [DARPModelLB.exData, DARPModelLB.exX, List.filter_cons]
  · unfold DARPModelLB.precedence_pairing
    simp only [exData_gen_eval]
    intro S hS
    obtain rfl : S = ({"0_start", "1-"} : Finset String) := by simpa using hS
    have hcard : ({"0_start", "1-"} : Finset String).card = 2 := by decide
    unfold DARPModelLB.arcs_in_S
    simp only [exData_A_eval]
    simp [DARPModelLB.exX, List.filter_cons, hcard]
  · unfold DARPModelLB.time_consistency
    simp only [exData_A_eval]
    intro a ha
    fin_cases ha <;>
      · unfold DARPModelLB.time_consistency_arc DARPModelLB.M_LB
        simp [DARPModelLB.exData, DARPModelLB.exX, DARPModelLB.exB]
        all_goals norm_num
  · unfold DARPModelLB.load_consistency
    simp only [exData_A_eval]
    intro a ha
    fin_cases ha <;>
      · unfold DARPModelLB.load_consistency_arc
        simp [DARPModelLB.exData, DARPModelLB.exX, DARPModelLB.exQ]
        all_goals norm_num
  · unfold DARPModelLB.service_windows
    simp only [exData_J_eval]
    intro j hj
    fin_cases hj <;> simp [DARPModelLB.exData, DARPModelLB.exB] <;> norm_num
  · unfold DARPModelLB.capacity_bound
    simp only [exData_J_eval]
    intro j hj
    fin_cases hj <;>
      simp [DARPModelLB.exData, DARPModelLB.exQ, max_def, min_def]
  · unfold DARPModelLB.max_ride_duration
    intro r hr
    obtain rfl : r = 1 := by
      simpa [DARPModelLB.exData] using hr
    rw [node_names_one.1, node_names_one.2]
    simp [DARPModelLB.exData, DARPModelLB.exB]
    all_goals norm_num
  · unfold DARPModelLB.x_binary
    simp only [exData_A_eval]
    intro a ha
    fin_cases ha <;> simp [DARPModelLB.exX]
  · unfold DARPModelLB.vars_nonneg
    simp only [exData_J_eval]
    intro j hj
    fin_cases hj <;> simp [DARPModelLB.exB, DARPModelLB.exQ]

/-- C1 counterexample: a feasible LB assignment in which the number of
selected arcs leaving the start depot (including `('0_start', '0_end')`,
which the fleet-limit constraint does not count) exceeds `K`: the sum over
all arcs leaving `'0_start'` is `2` while `K = 1`. -/
theorem c1_fleet_limit_counterexample :
    DARPModelLB.feasibleLB DARPModelLB.exData DARPModelLB.exX
      DARPModelLB.exB DARPModelLB.exQ ∧
    ¬ (DARPModelLB.startDepotOutSum DARPModelLB.exData DARPModelLB.exX ≤
        DARPModelLB.exData.vehicles) := by
  refine ⟨exLB_feasible, ?_⟩
  unfold DARPModelLB.startDepotOutSum
  simp only [exData_A_eval]
  simp [DARPModelLB.exData, DARPModelLB.exX, List.filter_cons]

/-- C1 (amended): the fleet-limit constraint bounds the selected arcs from
the start depot to the pickup nodes: for every feasible assignment,
`Σ_{j ∈ P, ('0_start',j) ∈ A} x['0_start', j] ≤ K`.  (The sum over all
arcs leaving the start depot is not bounded by `K`: the arc
`('0_start', '0_end')` is not counted, see the counterexample.) -/
theorem c1_fleet_limit_pickup_bound (d : DARPModelLB.LBData)
    (x : String × String → ℚ) (B Q : String → ℚ)
    (h : DARPModelLB.feasibleLB d x B Q) :
    ((d.P.filter (fun j => ("0_start", j) ∈ d.A)).map
      (fun j => x ("0_start", j))).sum ≤ d.vehicles :=
  h.2.2.1

/-- C1 witness: the pickup-restricted fleet sum of the counterexample
assignment does satisfy the bound. -/
theorem c1_fleet_limit_pickup_bound_witness :
    ((DARPModelLB.exData.P.filter
        (fun j => ("0_start", j) ∈ DARPModelLB.exData.A)).map
      (fun j => DARPModelLB.exX ("0_start", j))).sum ≤
      DARPModelLB.exData.vehicles :=
  c1_fleet_limit_pickup_bound DARPModelLB.exData DARPModelLB.exX
    DARPModelLB.exB DARPModelLB.exQ exLB_feasible
